import Mathlib

/-!
Shallow embedding of `src/packages/daf-selective-disclosure/src/action-handler.ts`
(the `SelectiveDisclosure` plugin of the daf repository) and proofs about it.

The three methods embedded are:
* `createSelectiveDisclosureRequest` — builds the signed SDR payload
  (modelled up to the call of the external signer `createJWT`);
* `getVerifiableCredentialsForSdr` — builds, per claim request, the
  `findArgs.where` filter passed to the external credential store
  (modelled up to the store call, whose filter argument we record);
* `validatePresentationAgainstSdr` — validates a presentation against a
  manifest.

JavaScript dynamic values appearing in `credentialSubject` are modelled by
the inductive `Value`; `undefined` / absent fields by `Option`; a JS runtime
`TypeError` (e.g. calling `.includes` on `undefined`) by `Except String`.
JS truthiness of an optional string field is `strTruthy` (absent or `""` is
falsy).
-/

set_option autoImplicit false

namespace DafSdr

/-- A dynamic JSON-ish value stored under a key of `credentialSubject`.
JS strict equality `===` between such a value and a string succeeds only on
an equal string (no coercion). -/
inductive Value where
  | str : String → Value
  | num : Int → Value
  | bool : Bool → Value
  deriving DecidableEq, Repr

/-- An allowed issuer entry of a claim request (`issuers: [{ did, url? }]`). -/
structure Issuer where
  did : String
  url : Option String := none
  deriving DecidableEq, Repr

/-- The `ICredentialRequestInput` interface: one requested claim of an SDR
manifest.  Optional fields are `Option`; an absent field is `none`. -/
structure ClaimRequest where
  claimType : Option String := none
  claimValue : Option String := none
  issuers : Option (List Issuer) := none
  credentialType : Option String := none
  credentialContext : Option String := none
  essential : Option Bool := none
  reason : Option String := none
  deriving DecidableEq, Repr

/-- The `ISelectiveDisclosureRequest` interface: the SDR manifest.  `issuer`
is `Option` because `createSelectiveDisclosureRequest` deletes it from the
object. -/
structure SdrRequest where
  issuer : Option String := none
  subject : Option String := none
  replyUrl : Option String := none
  claims : List ClaimRequest := []
  deriving DecidableEq, Repr

/-- The `issuer` object of a verifiable credential (`credential.issuer.id`). -/
structure CredIssuer where
  id : String
  deriving DecidableEq, Repr

/-- A verifiable credential as seen by the validator.  `credentialSubject`
is an association list (first matching key wins, as in a JS object);
`atContext` embeds the credential's `@context` field and `type` its `type`
field, both `Option` because a malformed credential may lack them. -/
structure Credential where
  credentialSubject : List (String × Value) := []
  issuer : CredIssuer := ⟨""⟩
  atContext : Option (List String) := none
  type : Option (List String) := none
  deriving DecidableEq, Repr

/-- A presentation: `presentation.verifiableCredential`. -/
structure Presentation where
  verifiableCredential : List Credential := []
  deriving DecidableEq, Repr

/-- The `ICredentialsForSdr` interface: a claim request (spread into the
result object) together with the credentials matched for it. -/
structure CredentialsForClaim where
  request : ClaimRequest
  credentials : List Credential
  deriving DecidableEq, Repr

/-- The `IPresentationValidationResult` interface. -/
structure ValidationResult where
  valid : Bool
  claims : List CredentialsForClaim
  deriving DecidableEq, Repr

/-- JS truthiness of an optional string field: `undefined` and `""` are
falsy, every other string is truthy. -/
def strTruthy : Option String → Bool
  | none => false
  | some s => !(s == "")

/-- Models `credential.credentialSubject[k]` — JS object property lookup,
`none` for `undefined`. -/
def lookupSubject (c : Credential) (k : String) : Option Value :=
  (c.credentialSubject.find? (fun p => p.1 == k)).map Prod.snd

/-- JS strict equality `v === s` between a possibly-undefined dynamic value
and a string: true only for an equal string value. -/
def jsStrictEqStr (v : Option Value) (s : String) : Bool :=
  match v with
  | some (Value.str t) => t == s
  | _ => false

/-- The error raised by JS when `.includes` is called on `undefined`
(a missing `@context` or `type` field). -/
def undefinedIncludesError : String :=
  "TypeError: Cannot read property includes of undefined"

/-- Checks 4 and 5 of the filter callback of `validatePresentationAgainstSdr`
(lines 175–186): the `credentialContext` membership test on
`credential.atContext` and then the `credentialType` membership test on
`credential.type`.  Calling `.includes` on a missing field throws. -/
def contextTypeCheck (cr : ClaimRequest) (c : Credential) : Except String Bool :=
  if strTruthy cr.credentialContext then
    match c.atContext with
    | none => .error undefinedIncludesError
    | some ctx =>
      if !(ctx.contains (cr.credentialContext.getD "")) then .ok false
      else typeCheck cr c
  else typeCheck cr c
where
  /-- Check 5 alone (lines 182–186). -/
  typeCheck (cr : ClaimRequest) (c : Credential) : Except String Bool :=
    if strTruthy cr.credentialType then
      match c.type with
      | none => .error undefinedIncludesError
      | some ts => .ok (ts.contains (cr.credentialType.getD ""))
    else .ok true

/-- The filter callback of `validatePresentationAgainstSdr` (lines 152–187):
given one claim request and one presented credential, decide whether the
credential matches, or throw on a missing `@context`/`type` field that a
set `credentialContext`/`credentialType` tries to inspect. -/
def matchCredential (cr : ClaimRequest) (c : Credential) : Except String Bool :=
  if strTruthy cr.claimType && strTruthy cr.claimValue &&
      !(jsStrictEqStr (lookupSubject c (cr.claimType.getD "")) (cr.claimValue.getD "")) then
    .ok false
  else if strTruthy cr.claimType && !(strTruthy cr.claimValue) &&
      (lookupSubject c (cr.claimType.getD "")).isNone then
    .ok false
  else if cr.issuers.isSome &&
      !(((cr.issuers.getD []).map Issuer.did).contains c.issuer.id) then
    .ok false
  else
    contextTypeCheck cr c

/-- Models `Array.prototype.filter` with a predicate that may throw: the
predicate runs left to right and the first throw aborts the whole call. -/
def filterExcept (p : Credential → Except String Bool) : List Credential → Except String (List Credential)
  | [] => .ok []
  | c :: cs =>
    match p c with
    | .error e => .error e
    | .ok b =>
      match filterExcept p cs with
      | .error e => .error e
      | .ok rest => .ok (if b then c :: rest else rest)

/-- The loop body of `validatePresentationAgainstSdr` (lines 151–197):
iterate over the manifest's claims, filter the presented credentials for
each, flip `valid` to `false` when an essential claim matched nothing, and
collect one `CredentialsForClaim` per claim in manifest order. -/
def validateGo (pres : List Credential) (valid : Bool) :
    List ClaimRequest → Except String (Bool × List CredentialsForClaim)
  | [] => .ok (valid, [])
  | cr :: rest =>
    match filterExcept (matchCredential cr) pres with
    | .error e => .error e
    | .ok credentials =>
      match validateGo pres
          (if cr.essential == some true && credentials.length == 0 then false else valid) rest with
      | .error e => .error e
      | .ok r => .ok (r.1, ⟨cr, credentials⟩ :: r.2)

/-- The method `validatePresentationAgainstSdr` (lines 145–199).  The JS
method either returns `{ valid, claims }` or rejects with a thrown
`TypeError`; the latter is the `.error` case. -/
def validatePresentationAgainstSdr (sdr : SdrRequest) (pres : Presentation) :
    Except String ValidationResult :=
  match validateGo pres.verifiableCredential true sdr.claims with
  | .error e => .error e
  | .ok r => .ok ⟨r.1, r.2⟩

/-- One entry of `findArgs.where` passed to
`dataStoreORMGetVerifiableCredentialsByClaims`. -/
structure WhereClause where
  column : String
  value : List String
  op : Option String := none
  deriving DecidableEq, Repr

/-- The where-clauses `getVerifiableCredentialsForSdr` pushes for one claim
request (lines 93–119), in push order. -/
def claimWhereClauses (cr : ClaimRequest) : List WhereClause :=
  (if strTruthy cr.claimType then [⟨"type", [cr.claimType.getD ""], none⟩] else [])
  ++ (if strTruthy cr.claimValue then [⟨"value", [cr.claimValue.getD ""], none⟩] else [])
  ++ (if cr.issuers.isSome then [⟨"issuer", (cr.issuers.getD []).map Issuer.did, none⟩] else [])
  ++ (if strTruthy cr.credentialType then
        [⟨"credentialType", ["%" ++ cr.credentialType.getD "" ++ "%"], some "Like"⟩] else [])
  ++ (if strTruthy cr.credentialContext then
        [⟨"context", ["%" ++ cr.credentialContext.getD "" ++ "%"], some "Like"⟩] else [])

/-- The subject clause pushed each iteration (lines 121–123): present when
`args.did || args.sdr.subject` is truthy, constraining the subject column to
the override `did` when truthy, else to the manifest subject. -/
def subjectClause (did subject : Option String) : List WhereClause :=
  if strTruthy did || strTruthy subject then
    [⟨"subject", [if strTruthy did then did.getD "" else subject.getD ""], none⟩]
  else []

/-- The loop of `getVerifiableCredentialsForSdr` (lines 92–131) as it builds
store filters: `findArgs` is created once, before the loop, so its `where`
array accumulates; the function returns the snapshot of `findArgs.where`
passed to the store for each claim request, in manifest order. -/
def gatherFiltersGo (subj : List WhereClause) (acc : List WhereClause) :
    List ClaimRequest → List (List WhereClause)
  | [] => []
  | cr :: rest =>
    let acc1 := acc ++ claimWhereClauses cr ++ subj
    acc1 :: gatherFiltersGo subj acc1 rest

/-- The method `getVerifiableCredentialsForSdr` (lines 86–133), modelled up
to the store: the list of `findArgs.where` filters passed to
`dataStoreORMGetVerifiableCredentialsByClaims`, one per claim request. -/
def getVerifiableCredentialsForSdrFilters (did : Option String) (sdr : SdrRequest) :
    List (List WhereClause) :=
  gatherFiltersGo (subjectClause did sdr.subject) [] sdr.claims

/-- The payload object `{ type: 'sdr', ...data }` handed to `createJWT`
together with its options (lines 59–69). -/
structure SdrPayload where
  type : String
  issuer : Option String
  subject : Option String
  replyUrl : Option String
  claims : List ClaimRequest
  deriving DecidableEq, Repr

/-- The observable call to `createJWT`: the payload body, the fixed
algorithm, and the outer (envelope) issuer. -/
structure JwtCall where
  payload : SdrPayload
  alg : String
  issuer : String
  deriving DecidableEq, Repr

/-- The method `createSelectiveDisclosureRequest` (lines 46–74), modelled up
to the external signer.  `identityDid` is the `did` of the identity returned by
`identityManagerGetIdentity({ did: data.issuer })`.  Returns the `createJWT`
call and the final state of the caller-supplied `args.data` object: the code
executes `delete data.issuer` before spreading `data` into the payload. -/
def createSelectiveDisclosureRequestRun (identityDid : String) (data : SdrRequest) :
    JwtCall × SdrRequest :=
  let d : SdrRequest := { data with issuer := none }
  (⟨⟨"sdr", d.issuer, d.subject, d.replyUrl, d.claims⟩, "ES256K-R", identityDid⟩, d)

/-! Concrete example inputs used by witness and counterexample theorems. -/

/-- A manifest with two claims of distinct claim types. -/
def exSdrTwoClaims : SdrRequest :=
  { claims := [{ claimType := some "a" }, { claimType := some "b" }] }

/-- A manifest with a single claim constraining the credential context. -/
def exSdrContext : SdrRequest :=
  { claims := [{ credentialContext := some "https://example.org" }] }

/-- A credential with no `@context` field. -/
def exCredNoContext : Credential :=
  { issuer := ⟨"did:x"⟩, type := some [] }

/-- A credential carrying the subject claim `name = "Alice"`. -/
def exCredAlice : Credential :=
  { credentialSubject := [("name", Value.str "Alice")], issuer := ⟨"did:x"⟩,
    atContext := some [], type := some [] }

/-- A credential carrying the falsy-but-defined subject claim `age = 0`. -/
def exCredAgeZero : Credential :=
  { credentialSubject := [("age", Value.num 0)], issuer := ⟨"did:x"⟩,
    atContext := some [], type := some [] }

/-- A manifest with a single essential claim on `name`. -/
def exSdrEssential : SdrRequest :=
  { claims := [{ claimType := some "name", essential := some true }] }

/-- A presentation that offers no credentials at all. -/
def exPresEmpty : Presentation := { verifiableCredential := [] }

/-- A presentation offering only `exCredAlice`. -/
def exPresAlice : Presentation := { verifiableCredential := [exCredAlice] }

/-- A manifest whose `issuer` field is set to `did:z`. -/
def exData : SdrRequest :=
  { issuer := some "did:z", subject := some "did:s",
    claims := [{ claimType := some "name" }] }

/-- A credential with every field left at its default (empty subject). -/
def exCredEmpty : Credential := {}

/-- The validation result of `exSdrEssential` against the empty presentation. -/
def exResEssentialEmpty : ValidationResult :=
  ⟨false, [⟨{ claimType := some "name", essential := some true }, []⟩]⟩

/-- The validation result of `exSdrEssential` against `exPresAlice`. -/
def exResEssentialAlice : ValidationResult :=
  ⟨true, [⟨{ claimType := some "name", essential := some true }, [exCredAlice]⟩]⟩

end DafSdr

namespace DafSdr

/-! Helper lemmas shared by several claim theorems. -/

/-- When a credential carries both `@context` and `type`, the matching
predicate cannot reach a throwing branch of checks 4 and 5. -/
theorem contextTypeCheck_ok_of_fields (cr : ClaimRequest) (c : Credential)
    (h1 : c.atContext.isSome) (h2 : c.type.isSome) :
    ∃ b, contextTypeCheck cr c = Except.ok b := by
  obtain ⟨ctx, hctx⟩ := Option.isSome_iff_exists.mp h1
  obtain ⟨ts, hty⟩ := Option.isSome_iff_exists.mp h2
  simp only [contextTypeCheck, contextTypeCheck.typeCheck, hctx, hty]
  repeat' split
  all_goals exact ⟨_, rfl⟩

/-- When a credential carries both `@context` and `type`, the matching
predicate returns a boolean and never throws. -/
theorem matchCredential_ok_of_fields (cr : ClaimRequest) (c : Credential)
    (h1 : c.atContext.isSome) (h2 : c.type.isSome) :
    ∃ b, matchCredential cr c = Except.ok b := by
  unfold matchCredential
  repeat' split
  · exact ⟨_, rfl⟩
  · exact ⟨_, rfl⟩
  · exact ⟨_, rfl⟩
  · exact contextTypeCheck_ok_of_fields cr c h1 h2

/-- A filtering pass whose predicate never throws on the list succeeds. -/
theorem filterExcept_isOk (p : Credential → Except String Bool) :
    ∀ l : List Credential, (∀ c ∈ l, ∃ b, p c = Except.ok b) →
      ∃ out, filterExcept p l = Except.ok out := by
  intro l
  induction l with
  | nil => intro _; exact ⟨[], rfl⟩
  | cons c cs ih =>
    intro h
    obtain ⟨b, hb⟩ := h c (List.mem_cons_self c cs)
    obtain ⟨rest, hrest⟩ := ih fun x hx => h x (List.mem_cons_of_mem c hx)
    simp only [filterExcept, hb, hrest]
    exact ⟨_, rfl⟩

end DafSdr

namespace DafSdr

/-- The loop of the validator, specified: on success the collected entries
mirror the processed claim list, and the returned flag is `false` exactly
when it started `false` or some entry pairs an essential claim request with
an empty credential list. -/
theorem validateGo_ok_spec (pres : List Credential) :
    ∀ (claims : List ClaimRequest) (valid v : Bool) (entries : List CredentialsForClaim),
      validateGo pres valid claims = Except.ok (v, entries) →
      entries.map CredentialsForClaim.request = claims ∧
      (v = false ↔ (valid = false ∨
        ∃ e ∈ entries, e.request.essential = some true ∧ e.credentials = [])) := by
  intro claims
  induction claims with
  | nil =>
    intro valid v entries h
    simp only [validateGo, Except.ok.injEq, Prod.mk.injEq] at h
    obtain ⟨hv, he⟩ := h
    subst hv
    subst he
    simp
  | cons cr rest ih =>
    intro valid v entries h
    simp only [validateGo] at h
    split at h
    · simp at h
    · rename_i creds hf
      split at h
      · simp at h
      · rename_i r hg
        simp only [Except.ok.injEq, Prod.mk.injEq] at h
        obtain ⟨hv, he⟩ := h
        subst hv
        subst he
        cases hc : cr.essential == some true && creds.length == 0 with
        | false =>
          rw [hc] at hg
          simp only [Bool.false_eq_true, if_false] at hg
          have spec := ih valid r.1 r.2 (by rw [hg])
          refine ⟨by simpa using spec.1, ?_⟩
          have hhead : ¬(cr.essential = some true ∧ creds = []) := by
            rintro ⟨h1, h2⟩
            rw [h1, h2] at hc
            simp at hc
          rw [spec.2]
          simp [List.exists_mem_cons_iff, hhead]
        | true =>
          rw [hc] at hg
          simp only [if_true] at hg
          have spec := ih false r.1 r.2 (by rw [hg])
          refine ⟨by simpa using spec.1, ?_⟩
          have hr1 : r.1 = false := spec.2.mpr (Or.inl rfl)
          have h12 : cr.essential = some true ∧ creds = [] := by
            simpa [Bool.and_eq_true, List.length_eq_zero] using hc
          constructor
          · intro _
            exact Or.inr ⟨⟨cr, creds⟩, List.mem_cons_self _ _, by simp [h12.1, h12.2]⟩
          · intro _
            exact hr1

/-- When every presented credential carries `@context` and `type`, the
validator loop succeeds whatever the claims and the incoming flag. -/
theorem validateGo_isOk (pres : List Credential)
    (hp : ∀ c ∈ pres, c.atContext.isSome ∧ c.type.isSome) :
    ∀ (claims : List ClaimRequest) (valid : Bool),
      ∃ out, validateGo pres valid claims = Except.ok out := by
  intro claims
  induction claims with
  | nil => intro valid; exact ⟨(valid, []), rfl⟩
  | cons cr rest ih =>
    intro valid
    obtain ⟨creds, hf⟩ := filterExcept_isOk (matchCredential cr) pres
      fun c hc => matchCredential_ok_of_fields cr c (hp c hc).1 (hp c hc).2
    obtain ⟨out, hg⟩ :=
      ih (if cr.essential == some true && creds.length == 0 then false else valid)
    simp only [validateGo, hf, hg]
    exact ⟨_, rfl⟩

end DafSdr

namespace DafSdr

/-- C1: the claim says each ClaimRequest is queried with a filter built only
from its own fields (plus the subject constraint).  The code creates
`findArgs` once, before the loop, so where-clauses accumulate: on the
manifest `[{claimType: 'a'}, {claimType: 'b'}]` the second store query is
issued with the filter `[type = 'a', type = 'b']`, which still contains the
first claim's predicate. -/
theorem C1_gatherer_filter_accumulates_across_claims :
    getVerifiableCredentialsForSdrFilters none exSdrTwoClaims =
      [[⟨"type", ["a"], none⟩], [⟨"type", ["a"], none⟩, ⟨"type", ["b"], none⟩]] ∧
    ⟨"type", ["a"], none⟩ ∈ (getVerifiableCredentialsForSdrFilters none exSdrTwoClaims).getD 1 [] := by
  decide

/-- C2 counterexample: a presented credential with no `@context` field is
not treated as having an empty sequence — when a ClaimRequest sets
`credentialContext`, the validator calls `.includes` on `undefined` and the
whole validation throws instead of returning a structured result. -/
theorem C2_missing_context_raises :
    validatePresentationAgainstSdr exSdrContext { verifiableCredential := [exCredNoContext] } =
      Except.error undefinedIncludesError := by
  rfl

/-- C2 (amended): for every manifest and every presentation whose
credentials all carry `@context` and `type` fields,
`validatePresentationAgainstSdr` returns a structured ValidationResult and
never raises. -/
theorem C2_validator_total_when_fields_present (sdr : SdrRequest) (pres : Presentation)
    (h : ∀ c ∈ pres.verifiableCredential, c.atContext.isSome ∧ c.type.isSome) :
    ∃ r, validatePresentationAgainstSdr sdr pres = Except.ok r := by
  obtain ⟨out, hg⟩ := validateGo_isOk pres.verifiableCredential h sdr.claims true
  exact ⟨⟨out.1, out.2⟩, by simp only [validatePresentationAgainstSdr, hg]⟩

/-- C2 witness: the amended theorem applied to a concrete manifest and a
concrete well-fielded presentation. -/
theorem C2_validator_total_when_fields_present_witness :
    ∃ r, validatePresentationAgainstSdr exSdrContext exPresAlice = Except.ok r :=
  C2_validator_total_when_fields_present exSdrContext exPresAlice (by decide)

end DafSdr

namespace DafSdr

/-- C3 counterexample: with `claimType` set and `claimValue` set to the
empty string, the predicate does not implement strict equality against the
claim value — the truthiness gate on `claimValue` routes the check to the
presence-only branch, so the credential with `name = 'Alice'` is accepted
although `'Alice' === ''` is false. -/
theorem C3_empty_claimValue_breaks_strict_equality :
    ¬ ((matchCredential { claimType := some "name", claimValue := some "" } exCredAlice =
          Except.ok true) ↔
        jsStrictEqStr (lookupSubject exCredAlice "name") "" = true) := by
  intro hiff
  have h1 : matchCredential { claimType := some "name", claimValue := some "" } exCredAlice =
      Except.ok true := by rfl
  have h2 := hiff.mp h1
  simp [jsStrictEqStr, lookupSubject, exCredAlice] at h2

/-- C3 (amended): for every ClaimRequest with nonempty `claimType = T` and
nonempty `claimValue = V` and no other constraints, the matching predicate
accepts a credential iff `credentialSubject[T]` is strictly equal to `V`
(exact, type-sensitive equality, no coercion). -/
theorem C3_claimValue_strict_equality (T V : String) (c : Credential)
    (hT : T ≠ "") (hV : V ≠ "") :
    matchCredential { claimType := some T, claimValue := some V } c =
      Except.ok (jsStrictEqStr (lookupSubject c T) V) := by
  have hTb : (T == "") = false := beq_eq_false_iff_ne.mpr hT
  have hVb : (V == "") = false := beq_eq_false_iff_ne.mpr hV
  cases hj : jsStrictEqStr (lookupSubject c T) V <;>
    simp [matchCredential, contextTypeCheck, contextTypeCheck.typeCheck, strTruthy,
      hTb, hVb, hj, Option.isNone_iff_eq_none]

/-- C3 witness: the amended theorem applied at `T = 'name'`, `V = 'Alice'`
and the concrete credential carrying `name = 'Alice'`. -/
theorem C3_claimValue_strict_equality_witness :
    matchCredential { claimType := some "name", claimValue := some "Alice" } exCredAlice =
      Except.ok (jsStrictEqStr (lookupSubject exCredAlice "name") "Alice") :=
  C3_claimValue_strict_equality "name" "Alice" exCredAlice (by decide) (by decide)

/-- C4 counterexample: with `claimType` set to the empty string (and nothing
else), the predicate does not require `credentialSubject['']` to be defined
— the truthiness gate skips both subject checks, so a credential with an
empty `credentialSubject` is accepted although the entry is undefined. -/
theorem C4_empty_claimType_breaks_presence :
    ¬ ((matchCredential { claimType := some "" } exCredEmpty = Except.ok true) ↔
        (lookupSubject exCredEmpty "").isSome = true) := by
  intro hiff
  have h1 : matchCredential { claimType := some "" } exCredEmpty = Except.ok true := by rfl
  have h2 := hiff.mp h1
  simp [lookupSubject, exCredEmpty] at h2

/-- C4 (amended): for every ClaimRequest with nonempty `claimType = T`,
`claimValue` unset and no other constraints, the matching predicate accepts
a credential iff `credentialSubject[T]` is defined; falsy-but-defined values
(empty string, 0, false) count as present. -/
theorem C4_claimType_presence (T : String) (c : Credential) (hT : T ≠ "") :
    matchCredential { claimType := some T } c =
      Except.ok (lookupSubject c T).isSome := by
  have hTb : (T == "") = false := beq_eq_false_iff_ne.mpr hT
  cases hl : lookupSubject c T <;>
    simp [matchCredential, contextTypeCheck, contextTypeCheck.typeCheck, strTruthy,
      hTb, hl, Option.isNone_iff_eq_none]

/-- C4 witness: the amended theorem applied at `T = 'age'` and the concrete
credential carrying the falsy-but-defined value `age = 0`, which counts as
present. -/
theorem C4_claimType_presence_witness :
    matchCredential { claimType := some "age" } exCredAgeZero =
      Except.ok (lookupSubject exCredAgeZero "age").isSome :=
  C4_claimType_presence "age" exCredAgeZero (by decide)

/-- C5: whenever the validator returns a result, `valid = false` iff at
least one ClaimRequest with `essential = true` ended up with zero matched
credentials in the output; a non-essential claim with zero matches never
flips `valid`. -/
theorem C5_invalid_iff_essential_unmatched (sdr : SdrRequest) (pres : Presentation)
    (r : ValidationResult) (h : validatePresentationAgainstSdr sdr pres = Except.ok r) :
    (r.valid = false ↔
      ∃ e ∈ r.claims, e.request.essential = some true ∧ e.credentials = []) := by
  unfold validatePresentationAgainstSdr at h
  split at h
  · simp at h
  · rename_i p hg
    simp only [Except.ok.injEq] at h
    subst h
    have spec := validateGo_ok_spec pres.verifiableCredential sdr.claims true p.1 p.2 (by rw [hg])
    simpa using spec.2

/-- C5 witness: the theorem applied to the essential-claim manifest and the
empty presentation, whose computed result has `valid = false`. -/
theorem C5_invalid_iff_essential_unmatched_witness :
    (exResEssentialEmpty.valid = false ↔
      ∃ e ∈ exResEssentialEmpty.claims, e.request.essential = some true ∧ e.credentials = []) :=
  C5_invalid_iff_essential_unmatched exSdrEssential exPresEmpty exResEssentialEmpty (by rfl)

/-- C6: whenever the validator returns a result, its `claims` sequence has
the same length as the manifest's `claims` and its entries carry, in
manifest order, exactly the manifest's ClaimRequests. -/
theorem C6_claims_mirror_manifest (sdr : SdrRequest) (pres : Presentation)
    (r : ValidationResult) (h : validatePresentationAgainstSdr sdr pres = Except.ok r) :
    r.claims.length = sdr.claims.length ∧
    r.claims.map CredentialsForClaim.request = sdr.claims := by
  unfold validatePresentationAgainstSdr at h
  split at h
  · simp at h
  · rename_i p hg
    simp only [Except.ok.injEq] at h
    subst h
    have spec := validateGo_ok_spec pres.verifiableCredential sdr.claims true p.1 p.2 (by rw [hg])
    refine ⟨?_, by simpa using spec.1⟩
    have hm : p.2.map CredentialsForClaim.request = sdr.claims := spec.1
    calc (ValidationResult.mk p.1 p.2).claims.length
        = (p.2.map CredentialsForClaim.request).length := by simp
      _ = sdr.claims.length := by rw [hm]

/-- C6 witness: the theorem applied to the essential-claim manifest and the
presentation offering the matching Alice credential. -/
theorem C6_claims_mirror_manifest_witness :
    exResEssentialAlice.claims.length = exSdrEssential.claims.length ∧
    exResEssentialAlice.claims.map CredentialsForClaim.request = exSdrEssential.claims :=
  C6_claims_mirror_manifest exSdrEssential exPresAlice exResEssentialAlice (by rfl)

/-- C7: for every manifest whose `issuer` field is set, the signed payload
body contains `type = 'sdr'` and the manifest's other fields but no
`issuer` field; the requester DID appears only as the token's outer
issuer. -/
theorem C7_payload_issuer_stripped (identityDid : String) (data : SdrRequest)
    (_hset : data.issuer.isSome = true) :
    (createSelectiveDisclosureRequestRun identityDid data).1.payload.issuer = none ∧
    (createSelectiveDisclosureRequestRun identityDid data).1.payload.type = "sdr" ∧
    (createSelectiveDisclosureRequestRun identityDid data).1.payload.subject = data.subject ∧
    (createSelectiveDisclosureRequestRun identityDid data).1.payload.replyUrl = data.replyUrl ∧
    (createSelectiveDisclosureRequestRun identityDid data).1.payload.claims = data.claims ∧
    (createSelectiveDisclosureRequestRun identityDid data).1.issuer = identityDid :=
  ⟨rfl, rfl, rfl, rfl, rfl, rfl⟩

/-- C7 witness: the theorem applied to the concrete manifest `exData`
(whose `issuer` is `did:z`) with the resolved identity DID `did:z`. -/
theorem C7_payload_issuer_stripped_witness :
    (createSelectiveDisclosureRequestRun "did:z" exData).1.payload.issuer = none ∧
    (createSelectiveDisclosureRequestRun "did:z" exData).1.payload.type = "sdr" ∧
    (createSelectiveDisclosureRequestRun "did:z" exData).1.payload.subject = exData.subject ∧
    (createSelectiveDisclosureRequestRun "did:z" exData).1.payload.replyUrl = exData.replyUrl ∧
    (createSelectiveDisclosureRequestRun "did:z" exData).1.payload.claims = exData.claims ∧
    (createSelectiveDisclosureRequestRun "did:z" exData).1.issuer = "did:z" :=
  C7_payload_issuer_stripped "did:z" exData (by decide)

/-- C8 counterexample: the call is not free of side effects on the caller's
manifest — `delete data.issuer` mutates `args.data`, so after the call on a
manifest whose `issuer` is `did:z` the object differs from the one the
caller supplied. -/
theorem C8_data_mutated :
    (createSelectiveDisclosureRequestRun "did:z" exData).2 ≠ exData := by
  decide

/-- C8 (amended): the only mutation `createSelectiveDisclosureRequest`
performs on the caller-supplied manifest is deleting its `issuer` field:
after the call `args.data` equals the original manifest with `issuer`
removed, every other field unchanged; beyond that and invoking the external
signer there is no side effect. -/
theorem C8_mutation_only_issuer (identityDid : String) (data : SdrRequest) :
    (createSelectiveDisclosureRequestRun identityDid data).2 = { data with issuer := none } :=
  rfl

/-- C9 counterexample: with `credentialType` set to the empty string, the
Validator does not require the decoded `type` sequence to contain that
string as an element — the truthiness gate skips check 5, so a credential
whose `type` list is `[]` is accepted although `''` is not an element of
`[]` (and the Gatherer likewise pushes no Like clause for it). -/
theorem C9_empty_credentialType_no_membership_required :
    ¬ ((matchCredential { credentialType := some "" } exCredNoContext = Except.ok true) ↔
        (exCredNoContext.type.getD []).contains "" = true) := by
  intro hiff
  have h1 : matchCredential { credentialType := some "" } exCredNoContext = Except.ok true := by
    rfl
  have h2 := hiff.mp h1
  simp [exCredNoContext] at h2

/-- C9 (amended): for every ClaimRequest with nonempty `credentialType`
(resp. `credentialContext`) set, the Gatherer pushes exactly a Like clause
on the `credentialType` (resp. `context`) column with the string wrapped in
`%` wildcards, while the Validator's predicate requires the decoded `type`
(resp. `@context`) sequence to contain that exact string as an element. -/
theorem C9_like_filter_vs_exact_membership (s : String) (c : Credential)
    (ts ctx : List String) (hs : s ≠ "") (hty : c.type = some ts)
    (hctx : c.atContext = some ctx) :
    claimWhereClauses { credentialType := some s } =
      [⟨"credentialType", ["%" ++ s ++ "%"], some "Like"⟩] ∧
    claimWhereClauses { credentialContext := some s } =
      [⟨"context", ["%" ++ s ++ "%"], some "Like"⟩] ∧
    matchCredential { credentialType := some s } c = Except.ok (ts.contains s) ∧
    matchCredential { credentialContext := some s } c = Except.ok (ctx.contains s) := by
  have hsb : (s == "") = false := beq_eq_false_iff_ne.mpr hs
  refine ⟨?_, ?_, ?_, ?_⟩
  · simp [claimWhereClauses, strTruthy, hsb]
  · simp [claimWhereClauses, strTruthy, hsb]
  · simp [matchCredential, contextTypeCheck, contextTypeCheck.typeCheck, strTruthy, hsb, hty]
  · by_cases hcon : s ∈ ctx <;>
      simp [matchCredential, contextTypeCheck, contextTypeCheck.typeCheck, strTruthy,
        hsb, hctx, hcon]

/-- C9 witness: the amended theorem applied at `s = 'VerifiableCredential'`
and a concrete credential whose decoded lists are present. -/
theorem C9_like_filter_vs_exact_membership_witness :
    claimWhereClauses { credentialType := some "VerifiableCredential" } =
      [⟨"credentialType", ["%" ++ "VerifiableCredential" ++ "%"], some "Like"⟩] ∧
    claimWhereClauses { credentialContext := some "VerifiableCredential" } =
      [⟨"context", ["%" ++ "VerifiableCredential" ++ "%"], some "Like"⟩] ∧
    matchCredential { credentialType := some "VerifiableCredential" } exCredAlice =
      Except.ok (([] : List String).contains "VerifiableCredential") ∧
    matchCredential { credentialContext := some "VerifiableCredential" } exCredAlice =
      Except.ok (([] : List String).contains "VerifiableCredential") :=
  C9_like_filter_vs_exact_membership "VerifiableCredential" exCredAlice [] []
    (by decide) (by rfl) (by rfl)

/-- C10: a claim-request field set to the empty string behaves exactly as if
it were unset, because every check gates on JS truthiness: replacing
`claimValue`, `claimType`, `credentialType` or `credentialContext` by `''`
gives the same predicate outcome as removing the field — in particular a
credential whose `credentialSubject[claimType]` is defined but different
from `''` still matches a request with `claimValue = ''` via the
presence-only branch. -/
theorem C10_empty_string_fields_act_as_unset (cr : ClaimRequest) (c : Credential) :
    matchCredential { cr with claimValue := some "" } c =
      matchCredential { cr with claimValue := none } c ∧
    matchCredential { cr with claimType := some "" } c =
      matchCredential { cr with claimType := none } c ∧
    matchCredential { cr with credentialType := some "" } c =
      matchCredential { cr with credentialType := none } c ∧
    matchCredential { cr with credentialContext := some "" } c =
      matchCredential { cr with credentialContext := none } c := by
  refine ⟨?_, ?_, ?_, ?_⟩ <;>
    simp [matchCredential, contextTypeCheck, contextTypeCheck.typeCheck, strTruthy]

end DafSdr
